import Mathlib

/-
Verification of the Binance pair codec and currency normalizer of the
cex-exchanges repository, files
  src/exchanges/binance/pairs.rs
  src/exchanges/binance/rest_api/endpoints/symbols.rs

Embedding conventions:
  - Rust String / &str is modelled as List Char; the helper S turns a Lean
    string literal into that representation.
  - str::to_uppercase / to_lowercase are modelled per character with
    Char.toUpper / Char.toLower (the ASCII case map, which is what the
    inputs of this codec exercise).
  - fallible Rust functions returning eyre::Result are modelled with
    Except; a Rust panic (unwrap on Err/None) is modelled with a dedicated
    result constructor, since a panic is not a returned value.
  - types that live outside the two source files (the normalized data
    model) are modelled from the spec; each such definition carries a doc
    comment starting with: Modelled from the spec.
-/

/-- Characters of a string literal, the List Char view of a Rust string. -/
def S (s : String) : List Char := s.data

/-- Model of Rust str::to_uppercase (per character ASCII case map). -/
def toUpperList (s : List Char) : List Char := s.map Char.toUpper

/-- Model of Rust str::to_lowercase (per character ASCII case map). -/
def toLowerList (s : List Char) : List Char := s.map Char.toLower

/-- Model of Rust str::contains (substring containment) on List Char. -/
def containsSub (hay needle : List Char) : Bool :=
  match hay with
  | [] => List.isPrefixOf needle []
  | c :: t => List.isPrefixOf needle (c :: t) || containsSub t needle

/-- Model of Rust str::starts_with on a single character. -/
def startsWithChar (c : Char) (s : List Char) : Bool :=
  match s with
  | [] => false
  | a :: _ => a == c

/-- Model of Rust str::split on a single character delimiter: the list of
fragments between occurrences of the delimiter, always nonempty. -/
def splitOnChar (d : Char) : List Char → List (List Char)
  | [] => [[]]
  | c :: cs =>
    match splitOnChar d cs with
    | r :: rs => if c = d then [] :: r :: rs else (c :: r) :: rs
    | [] => [[]]

/-- BinanceTradingPair from pairs.rs: a newtype over the native pair text. -/
structure BinanceTradingPair where
  val : List Char
deriving DecidableEq, Repr

/-- Modelled from the spec: CanonicalPair (NormalizedTradingPair) lives
outside the two source files. It carries either an explicit base/quote
pair of currency symbols or a single raw pair string plus an optional
delimiter character; the accessors base_quote, pair and delimiter used by
pairs.rs are the fields below. -/
structure NormalizedTradingPair where
  base_quote : Option (List Char × List Char)
  pair : Option (List Char)
  delimiter : Option Char
deriving DecidableEq, Repr

/-- Error values of the codec. InvalidPairFormat carries the offending raw
text, mirroring the eyre messages of pairs.rs lines 77 and 91 which embed
the offending string; InvalidPairDebug mirrors the exhaustion error of
line 80 which embeds the Debug rendering of the whole normalized value. -/
inductive PairError where
  | InvalidPairFormat (offending : List Char)
  | InvalidPairDebug (value : NormalizedTradingPair)
deriving DecidableEq, Repr

namespace BinanceTradingPair

/-- pairs.rs lines 15-17: the validity predicate on native pair text. -/
def is_valid (s : List Char) : Bool :=
  !(s.contains '-') && !(s.contains '_') && !(s.contains '/')

/-- pairs.rs lines 84-94, TryFrom<&str>: validate, then uppercase and wrap. -/
def tryFromStr (value : List Char) : Except PairError BinanceTradingPair :=
  if is_valid value then Except.ok ⟨toUpperList value⟩
  else Except.error (PairError.InvalidPairFormat value)

/-- pairs.rs lines 96-102, TryFrom<String>: delegates to TryFrom<&str>. -/
def tryFromString (value : List Char) : Except PairError BinanceTradingPair :=
  tryFromStr value

/-- pairs.rs lines 11-13: new_checked delegates to TryFrom<String>. -/
def new_checked (s : List Char) : Except PairError BinanceTradingPair :=
  tryFromString s

/-- pairs.rs lines 43-52, Deserialize: wraps the decoded string verbatim,
with no validation and no case change. -/
def deserialize (s : List Char) : BinanceTradingPair := ⟨s⟩

end BinanceTradingPair

/-- Result of the TryFrom<NormalizedTradingPair> conversion. The split
branch of pairs.rs line 69 calls unwrap on the second split fragment,
which panics when the delimiter does not occur in the raw string; panicked
models that non-returning outcome. -/
inductive EncodeResult where
  | ok (p : BinanceTradingPair)
  | err (e : PairError)
  | panicked
deriving DecidableEq, Repr

/-- pairs.rs lines 54-82, TryFrom<NormalizedTradingPair>: the ordered
fallback chain converting a canonical pair to a native Binance pair. -/
def BinanceTradingPair.tryFromNormalized (value : NormalizedTradingPair) : EncodeResult :=
  match value.base_quote with
  | some (base, quote) => EncodeResult.ok ⟨base ++ quote⟩
  | none =>
    match value.pair with
    | some raw_pair =>
      match BinanceTradingPair.new_checked raw_pair with
      | Except.ok v => EncodeResult.ok v
      | Except.error _ =>
        match value.delimiter with
        | some d =>
          match splitOnChar d raw_pair with
          | p0 :: p1 :: _ => EncodeResult.ok ⟨toUpperList p0 ++ toUpperList p1⟩
          | _ => EncodeResult.panicked
        | none =>
          let new_str := raw_pair.filter (fun c => !(c == '_' || c == '-' || c == '/'))
          match BinanceTradingPair.new_checked new_str with
          | Except.ok this => EncodeResult.ok this
          | Except.error _ => EncodeResult.err (PairError.InvalidPairFormat raw_pair)
    | none => EncodeResult.err (PairError.InvalidPairDebug value)

/-- BinanceTradingType from pairs.rs lines 104-114. -/
inductive BinanceTradingType where
  | Spot
  | Perpetual
  | Margin
  | Futures
  | Option
  | Other
deriving DecidableEq, Repr

/-- pairs.rs lines 128-143, FromStr for BinanceTradingType: lowercase the
token and match it against the alias table; every unmatched token yields
Ok Other, so the function never returns an error. -/
def BinanceTradingType.from_str (value : List Char) : Except PairError BinanceTradingType :=
  let s := toLowerList value
  if s = S "spot" then Except.ok BinanceTradingType.Spot
  else if s = S "perpetual" ∨ s = S "perp" ∨ s = S "swap" ∨ s = S "linear" ∨ s = S "inverse" then
    Except.ok BinanceTradingType.Perpetual
  else if s = S "futures" then Except.ok BinanceTradingType.Futures
  else if s = S "margin" then Except.ok BinanceTradingType.Margin
  else if s = S "option" then Except.ok BinanceTradingType.Option
  else Except.ok BinanceTradingType.Other

/-- Modelled from the spec: the exchange enumeration lives outside the two
source files; the code under src/ only names the Binance variant, a second
variant keeps the comparison with the exchange tag meaningful. -/
inductive CexExchange where
  | Binance
  | OtherExchange
deriving DecidableEq, Repr

/-- Modelled from the spec: the back-reference from a blockchain platform
to its unwrapped counterpart currency is a weak lookup key; the code under
src/ reads only the name and symbol of the referenced currency. -/
structure WrappedCurrencyRef where
  name : List Char
  symbol : List Char
deriving DecidableEq, Repr

/-- Modelled from the spec: BlockchainCurrency lives outside the two
source files. It holds the parsed chain identifier, an optional on-chain
address, the wrapped flag, and the optional back-reference. The chain
identifier is modelled as the recognized chain name itself. -/
structure BlockchainCurrency where
  blockchain : List Char
  address : Option (List Char)
  is_wrapped : Bool
  wrapped_currency : Option WrappedCurrencyRef
deriving DecidableEq, Repr

/-- Modelled from the spec: NormalizedCurrency (CanonicalCurrency) lives
outside the two source files: exchange tag, symbol, name, optional display
name, status text, and the list of blockchain platforms. -/
structure NormalizedCurrency where
  exchange : CexExchange
  symbol : List Char
  name : List Char
  display_name : Option (List Char)
  status : List Char
  blockchains : List BlockchainCurrency
deriving DecidableEq, Repr

/-- Modelled from the spec: the table of recognized blockchain names lives
outside the two source files; the spec only states that chain names are
parsed against a fixed known-chain table and that unrecognized names fail.
A representative table is enough for every claim, which only distinguishes
recognized from unrecognized names. -/
def knownChains : List (List Char) := [S "Ethereum", S "Solana", S "Polygon", S "BNB"]

/-- Modelled from the spec: parsing a chain name (the FromStr call of
symbols.rs line 129) succeeds exactly on recognized names and yields the
chain identifier, modelled as the name itself. -/
def parseBlockchainName (s : List Char) : Option (List Char) :=
  if knownChains.contains s then some s else none

/-- BinanceSymbolPlatform from symbols.rs lines 176-184. -/
structure BinanceSymbolPlatform where
  symbol : List Char
  name : List Char
  token_address : List Char
  id : Nat
  slug : List Char
deriving DecidableEq, Repr

/-- BinanceSymbol from symbols.rs lines 101-122, restricted to the fields
read by the operations under verification (symbol, name, last_updated,
platform); the market-data fields (supplies, ranks, quotes, tags, slug,
id, date_added) are carried by no modelled operation and are omitted. The
last_updated timestamp is modelled by its rendered text. -/
structure BinanceSymbol where
  symbol : List Char
  last_updated : List Char
  platform : Option BinanceSymbolPlatform
  name : List Char
deriving DecidableEq, Repr

/-- Outcome of a computation that may panic instead of returning. -/
inductive PanicOr (α : Type) where
  | panicked
  | ok (val : α)
deriving DecidableEq, Repr

/-- symbols.rs lines 125-137, BinanceSymbol::parse_blockchain: when a
platform is present, build the BlockchainCurrency, calling unwrap on the
chain-name parse (a panic, not an error return, when the name is not
recognized); when absent, yield none. -/
def BinanceSymbol.parse_blockchain (self : BinanceSymbol) : PanicOr (Option BlockchainCurrency) :=
  match self.platform with
  | some pl =>
    let is_wrapped := containsSub (toLowerList self.name) (S "wrapped")
      && startsWithChar 'w' (toLowerList self.symbol)
    match parseBlockchainName pl.name with
    | some b => PanicOr.ok (some
        { blockchain := b
          address := some pl.token_address
          is_wrapped := is_wrapped
          wrapped_currency := none })
    | none => PanicOr.panicked
  | none => PanicOr.ok none

/-- symbols.rs lines 139-149, BinanceSymbol::normalize: build the
normalized currency from the record; the panic of parse_blockchain
propagates. -/
def BinanceSymbol.normalize (self : BinanceSymbol) : PanicOr NormalizedCurrency :=
  match self.parse_blockchain with
  | PanicOr.panicked => PanicOr.panicked
  | PanicOr.ok pb =>
    let blockchains := match pb with
      | some p => [p]
      | none => []
    PanicOr.ok
      { exchange := CexExchange.Binance
        symbol := self.symbol
        name := self.name
        display_name := none
        status := S "last updated: " ++ self.last_updated
        blockchains := blockchains }

/-- BinanceAllSymbols from symbols.rs lines 17-21. -/
structure BinanceAllSymbols where
  symbols : List BinanceSymbol
deriving DecidableEq, Repr

/-- Modelled from the spec: the normalized REST payload enumeration lives
outside the two source files; the comparison of symbols.rs lines 35-68
matches the AllCurrencies variant and maps every other variant to false. -/
inductive NormalizedRestApiDataTypes where
  | AllCurrencies (currs : List NormalizedCurrency)
  | OtherData
deriving DecidableEq, Repr

/-- symbols.rs lines 49-55: the per-entry test of the synthetic counter of
the equivalence comparison: some blockchain of the entry carries a present
wrapped_currency, is flagged is_wrapped, and the referenced currency has a
name containing wrapped and a symbol starting with w, case-insensitively. -/
def wrappedSyntheticCode (curr : NormalizedCurrency) : Bool :=
  curr.blockchains.any (fun blk =>
    match blk.wrapped_currency with
    | some blk_curr =>
      blk.is_wrapped && containsSub (toLowerList blk_curr.name) (S "wrapped")
        && startsWithChar 'w' (toLowerList blk_curr.symbol)
    | none => false)

/-- symbols.rs lines 35-68, PartialEq<NormalizedRestApiDataTypes> for
BinanceAllSymbols: the equivalence comparison between the local raw batch
and the normalized reference batch. The HashSet of (name, symbol) pairs is
modelled as a list queried by contains, and the for_each counter as
countP. -/
def BinanceAllSymbols.eqNormalized (self : BinanceAllSymbols) (other : NormalizedRestApiDataTypes) : Bool :=
  match other with
  | NormalizedRestApiDataTypes.AllCurrencies other_currs =>
    let this_currencies := self.symbols.map (fun sym => (sym.name, sym.symbol))
    let normalized_out := other_currs.countP wrappedSyntheticCode
    (self.symbols.length == other_currs.length + normalized_out)
      && other_currs.all (fun curr => this_currencies.contains (curr.name, curr.symbol))
  | _ => false

/-- Claim C1 wording of the synthetic-entry test, written from the words
of the spec for the refinement comparison: some blockchain of the entry is
flagged is_wrapped and carries a present wrapped_currency reference, with
no condition on the referenced name and symbol. -/
def wrappedSyntheticSpec (curr : NormalizedCurrency) : Bool :=
  curr.blockchains.any (fun blk => blk.is_wrapped && blk.wrapped_currency.isSome)

/-- Claim C1 wording of the equivalence comparison, written from the words
of the spec for the refinement comparison: length equation against the
spec synthetic count plus containment of every reference (name, symbol). -/
def specEquivalent (self : BinanceAllSymbols) (other_currs : List NormalizedCurrency) : Bool :=
  (self.symbols.length == other_currs.length + other_currs.countP wrappedSyntheticSpec)
    && other_currs.all (fun curr =>
        (self.symbols.map (fun sym => (sym.name, sym.symbol))).contains (curr.name, curr.symbol))

/-- Model of serde_json::Value, the generic JSON document the envelope
unwrapping of symbols.rs lines 70-99 traverses. -/
inductive JsonValue where
  | null
  | bool (b : Bool)
  | num (n : Int)
  | str (s : List Char)
  | arr (elems : List JsonValue)
  | obj (fields : List (List Char × JsonValue))

/-- Model of serde_json::Value::get with a string key: field lookup on an
object, none on every other value. -/
def JsonValue.get (v : JsonValue) (key : List Char) : Option JsonValue :=
  match v with
  | JsonValue.obj fields =>
    match fields.find? (fun f => f.1 == key) with
    | some f => some f.2
    | none => none
  | _ => none

/-- Model of serde_json::Value::as_array. -/
def JsonValue.as_array (v : JsonValue) : Option (List JsonValue) :=
  match v with
  | JsonValue.arr elems => some elems
  | _ => none

/-- Extract a JSON string value. -/
def JsonValue.asString (v : JsonValue) : Option (List Char) :=
  match v with
  | JsonValue.str s => some s
  | _ => none

/-- Decode of one platform object (the derived Deserialize of
BinanceSymbolPlatform): every field is required. -/
def decodePlatform (v : JsonValue) : Option BinanceSymbolPlatform :=
  match (v.get (S "symbol")).bind JsonValue.asString,
        (v.get (S "name")).bind JsonValue.asString,
        (v.get (S "token_address")).bind JsonValue.asString,
        v.get (S "id"),
        (v.get (S "slug")).bind JsonValue.asString with
  | some sym, some nm, some addr, some (JsonValue.num i), some slug =>
    if 0 ≤ i then some
      { symbol := sym, name := nm, token_address := addr, id := i.toNat, slug := slug }
    else none
  | _, _, _, _, _ => none

/-- Decode of one symbol record (the derived Deserialize of BinanceSymbol,
restricted to the modelled fields): symbol, name and last_updated are
required strings; platform is optional (absent or null yields none, an
object must decode, anything else fails the record). -/
def decodeSymbol (v : JsonValue) : Option BinanceSymbol :=
  match (v.get (S "symbol")).bind JsonValue.asString,
        (v.get (S "name")).bind JsonValue.asString,
        (v.get (S "last_updated")).bind JsonValue.asString with
  | some sym, some nm, some lu =>
    match v.get (S "platform") with
    | none => some { symbol := sym, name := nm, last_updated := lu, platform := none }
    | some JsonValue.null => some { symbol := sym, name := nm, last_updated := lu, platform := none }
    | some pv =>
      match decodePlatform pv with
      | some pl => some { symbol := sym, name := nm, last_updated := lu, platform := some pl }
      | none => none
  | _, _, _ => none

/-- Errors of the envelope unwrapping of symbols.rs lines 70-99, one value
per distinct eyre message: the three missing path segments (data, body,
and the nested data), the terminal value not being an array, and a record
of the terminal array failing to decode. -/
inductive EnvelopeError where
  | missingData
  | missingBody
  | missingNestedData
  | notAnArray
  | recordDecode
deriving DecidableEq, Repr

/-- symbols.rs lines 70-99, Deserialize for BinanceAllSymbols: walk the
data.body.data path reporting the first absent segment, require the
terminal value to be an array, and decode every element, failing the
whole batch on the first element that fails (the collect into Result). -/
def BinanceAllSymbols.deserialize (val : JsonValue) : Except EnvelopeError BinanceAllSymbols :=
  match val.get (S "data") with
  | none => Except.error EnvelopeError.missingData
  | some outer =>
    match outer.get (S "body") with
    | none => Except.error EnvelopeError.missingBody
    | some body =>
      match body.get (S "data") with
      | none => Except.error EnvelopeError.missingNestedData
      | some inner =>
        match inner.as_array with
        | none => Except.error EnvelopeError.notAnArray
        | some elems =>
          match elems.mapM decodeSymbol with
          | none => Except.error EnvelopeError.recordDecode
          | some symbols => Except.ok ⟨symbols⟩

/-- Valid code points below the surrogate range round-trip through
Char.ofNat. -/
theorem charOfNat_toNat (n : Nat) (h : n < 55296) : (Char.ofNat n).toNat = n := by
  have hv : n.isValidChar := Or.inl h
  rw [Char.ofNat, dif_pos hv]
  simp [Char.ofNatAux, Char.toNat, UInt32.ofNat', UInt32.toNat, BitVec.toNat_ofNatLt]

/-- The ASCII upper-case map is idempotent. -/
theorem charToUpper_idem (c : Char) : c.toUpper.toUpper = c.toUpper := by
  unfold Char.toUpper
  by_cases h : 97 ≤ c.toNat ∧ c.toNat ≤ 122
  · rw [if_pos h]
    have ht : (Char.ofNat (c.toNat - 32)).toNat = c.toNat - 32 :=
      charOfNat_toNat _ (by omega)
    rw [if_neg (by omega)]
  · rw [if_neg h, if_neg h]

/-- A character outside the upper-case letter range is hit by the
upper-case map only from itself. -/
theorem charToUpper_fixed_target (c x : Char) (hx : x.toNat < 65 ∨ 90 < x.toNat)
    (h : c.toUpper = x) : c = x := by
  unfold Char.toUpper at h
  by_cases hc : 97 ≤ c.toNat ∧ c.toNat ≤ 122
  · rw [if_pos hc] at h
    have ht : (Char.ofNat (c.toNat - 32)).toNat = c.toNat - 32 :=
      charOfNat_toNat _ (by omega)
    have hn := congrArg Char.toNat h
    rw [ht] at hn
    omega
  · rwa [if_neg hc] at h

/-- Upper-casing a string introduces no occurrence of a character outside
the upper-case letter range. -/
theorem contains_toUpperList_eq_false (s : List Char) (x : Char)
    (hx : x.toNat < 65 ∨ 90 < x.toNat) (hs : s.contains x = false) :
    (toUpperList s).contains x = false := by
  rw [Bool.eq_false_iff] at hs ⊢
  intro hmem
  apply hs
  have hmem' : x ∈ toUpperList s := by
    simpa using hmem
  obtain ⟨c, hc, hcx⟩ := List.mem_map.mp hmem'
  have : c = x := charToUpper_fixed_target c x hx hcx
  subst this
  simpa using hc

/-- Upper-casing preserves validity of a native pair string. -/
theorem is_valid_toUpperList (s : List Char)
    (h : BinanceTradingPair.is_valid s = true) :
    BinanceTradingPair.is_valid (toUpperList s) = true := by
  unfold BinanceTradingPair.is_valid at h ⊢
  simp only [Bool.and_eq_true, Bool.not_eq_true'] at h ⊢
  exact ⟨⟨contains_toUpperList_eq_false s '-' (by decide) h.1.1,
          contains_toUpperList_eq_false s '_' (by decide) h.1.2⟩,
         contains_toUpperList_eq_false s '/' (by decide) h.2⟩

/-- Upper-casing a string is idempotent. -/
theorem toUpperList_idem (s : List Char) : toUpperList (toUpperList s) = toUpperList s := by
  unfold toUpperList
  rw [List.map_map]
  exact List.map_congr_left (fun c _ => charToUpper_idem c)

/-- Claim C6: decode succeeds exactly on strings containing none of the three
delimiter characters; success yields the upper-cased input, failure
yields InvalidPairFormat carrying the offending input. -/
theorem c6_decode_charset (s : List Char) :
    ((∃ p, BinanceTradingPair.tryFromStr s = Except.ok p) ↔
      (s.contains '-' = false ∧ s.contains '_' = false ∧ s.contains '/' = false))
    ∧ (BinanceTradingPair.is_valid s = true →
        BinanceTradingPair.tryFromStr s = Except.ok ⟨toUpperList s⟩)
    ∧ (BinanceTradingPair.is_valid s = false →
        BinanceTradingPair.tryFromStr s = Except.error (PairError.InvalidPairFormat s)) := by
  refine ⟨?_, ?_, ?_⟩
  · constructor
    · rintro ⟨p, hp⟩
      unfold BinanceTradingPair.tryFromStr at hp
      by_cases hv : BinanceTradingPair.is_valid s = true
      · unfold BinanceTradingPair.is_valid at hv
        simp only [Bool.and_eq_true, Bool.not_eq_true'] at hv
        exact ⟨hv.1.1, hv.1.2, hv.2⟩
      · rw [if_neg hv] at hp
        exact absurd hp (by simp)
    · intro hc
      have hv : BinanceTradingPair.is_valid s = true := by
        unfold BinanceTradingPair.is_valid
        simp only [Bool.and_eq_true, Bool.not_eq_true']
        exact ⟨⟨hc.1, hc.2.1⟩, hc.2.2⟩
      exact ⟨⟨toUpperList s⟩, by unfold BinanceTradingPair.tryFromStr; rw [if_pos hv]⟩
  · intro hv
    unfold BinanceTradingPair.tryFromStr
    rw [if_pos hv]
  · intro hv
    unfold BinanceTradingPair.tryFromStr
    rw [if_neg (by simp [hv])]

/-- Witness for C6 at concrete inputs. -/
theorem c6_decode_charset_witness :
    BinanceTradingPair.tryFromStr (S "btcusdt") = Except.ok ⟨toUpperList (S "btcusdt")⟩
    ∧ BinanceTradingPair.tryFromStr (S "BTC-USDT")
        = Except.error (PairError.InvalidPairFormat (S "BTC-USDT")) :=
  ⟨(c6_decode_charset (S "btcusdt")).2.1 (by decide),
   (c6_decode_charset (S "BTC-USDT")).2.2 (by decide)⟩

/-- Claim C8: decode is idempotent: re-decoding the inner string of a decoded
pair succeeds and returns the same pair. -/
theorem c8_decode_idempotent (s : List Char) (p : BinanceTradingPair)
    (h : BinanceTradingPair.tryFromStr s = Except.ok p) :
    BinanceTradingPair.tryFromStr p.val = Except.ok p := by
  unfold BinanceTradingPair.tryFromStr at h
  by_cases hv : BinanceTradingPair.is_valid s = true
  · rw [if_pos hv] at h
    have hp : p = ⟨toUpperList s⟩ := by
      cases h
      rfl
    subst hp
    unfold BinanceTradingPair.tryFromStr
    rw [if_pos (is_valid_toUpperList s hv)]
    simp [toUpperList_idem]
  · rw [if_neg hv] at h
    exact absurd h (by simp)

/-- Witness for C8 at a concrete input. -/
theorem c8_decode_idempotent_witness :
    BinanceTradingPair.tryFromStr
      (BinanceTradingPair.mk (S "BTCUSDT")).val = Except.ok ⟨S "BTCUSDT"⟩ :=
  c8_decode_idempotent (S "btcusdt") ⟨S "BTCUSDT"⟩ (by rfl)

/-- Stripping every occurrence of the three delimiter characters always
yields a string the validity predicate accepts. -/
theorem is_valid_strip (raw : List Char) :
    BinanceTradingPair.is_valid
      (raw.filter (fun c => !(c == '_' || c == '-' || c == '/'))) = true := by
  have key : ∀ x : Char, (x == '_' || x == '-' || x == '/') = true →
      (raw.filter (fun c => !(c == '_' || c == '-' || c == '/'))).contains x = false := by
    intro x hx
    rw [Bool.eq_false_iff]
    intro hc
    have hmem : x ∈ raw.filter (fun c => !(c == '_' || c == '-' || c == '/')) := by
      simpa using hc
    have hpx := (List.mem_filter.mp hmem).2
    rw [hx] at hpx
    simp at hpx
  unfold BinanceTradingPair.is_valid
  simp only [Bool.and_eq_true, Bool.not_eq_true']
  exact ⟨⟨key '-' (by decide), key '_' (by decide)⟩, key '/' (by decide)⟩

/-- Claim C2: the encode conversion follows the ordered fallback chain: explicit
base/quote concatenated verbatim first; else decode of the raw string if
it succeeds; else, with a declared delimiter splitting the raw string into
exactly two parts, their upper-cased concatenation; else decode of the raw
string stripped of the three delimiter characters if valid; else the
InvalidPairFormat error carrying the raw text. Explicit BTC/USDT encodes
to BTCUSDT, and raw BTC_USDT with no delimiter encodes to BTCUSDT. -/
theorem c2_encode_fallback_chain (v : NormalizedTradingPair) :
    (∀ base quote, v.base_quote = some (base, quote) →
      BinanceTradingPair.tryFromNormalized v = EncodeResult.ok ⟨base ++ quote⟩)
    ∧ (∀ raw p, v.base_quote = none → v.pair = some raw →
        BinanceTradingPair.tryFromStr raw = Except.ok p →
        BinanceTradingPair.tryFromNormalized v = EncodeResult.ok p)
    ∧ (∀ raw d p0 p1, v.base_quote = none → v.pair = some raw →
        BinanceTradingPair.is_valid raw = false → v.delimiter = some d →
        splitOnChar d raw = [p0, p1] →
        BinanceTradingPair.tryFromNormalized v
          = EncodeResult.ok ⟨toUpperList p0 ++ toUpperList p1⟩)
    ∧ (∀ raw p, v.base_quote = none → v.pair = some raw →
        BinanceTradingPair.is_valid raw = false → v.delimiter = none →
        BinanceTradingPair.tryFromStr
          (raw.filter (fun c => !(c == '_' || c == '-' || c == '/'))) = Except.ok p →
        BinanceTradingPair.tryFromNormalized v = EncodeResult.ok p)
    ∧ (∀ raw, v.base_quote = none → v.pair = some raw →
        BinanceTradingPair.is_valid raw = false → v.delimiter = none →
        BinanceTradingPair.is_valid
          (raw.filter (fun c => !(c == '_' || c == '-' || c == '/'))) = false →
        BinanceTradingPair.tryFromNormalized v
          = EncodeResult.err (PairError.InvalidPairFormat raw))
    ∧ BinanceTradingPair.tryFromNormalized ⟨some (S "BTC", S "USDT"), none, none⟩
        = EncodeResult.ok ⟨S "BTCUSDT"⟩
    ∧ BinanceTradingPair.tryFromNormalized ⟨none, some (S "BTC_USDT"), none⟩
        = EncodeResult.ok ⟨S "BTCUSDT"⟩ := by
  refine ⟨?_, ?_, ?_, ?_, ?_, by decide, by decide⟩
  · intro base quote h
    unfold BinanceTradingPair.tryFromNormalized
    rw [h]
  · intro raw p h1 h2 h3
    unfold BinanceTradingPair.tryFromNormalized
    rw [h1, h2]
    simp [BinanceTradingPair.new_checked, BinanceTradingPair.tryFromString, h3]
  · intro raw d p0 p1 h1 h2 hval h4 h5
    have he : BinanceTradingPair.tryFromStr raw
        = Except.error (PairError.InvalidPairFormat raw) := by
      unfold BinanceTradingPair.tryFromStr
      rw [if_neg (by simp [hval])]
    unfold BinanceTradingPair.tryFromNormalized
    rw [h1, h2]
    simp [BinanceTradingPair.new_checked, BinanceTradingPair.tryFromString, he, h4, h5]
  · intro raw p h1 h2 hval h4 h5
    have he : BinanceTradingPair.new_checked raw
        = Except.error (PairError.InvalidPairFormat raw) := by
      unfold BinanceTradingPair.new_checked BinanceTradingPair.tryFromString
        BinanceTradingPair.tryFromStr
      rw [if_neg (by simp [hval])]
    have h5n : BinanceTradingPair.new_checked
        (raw.filter (fun c => !(c == '_' || c == '-' || c == '/'))) = Except.ok p := h5
    unfold BinanceTradingPair.tryFromNormalized
    simp only [h1, h2, he, h4, h5n]
  · intro raw h1 h2 hval h4 h5
    rw [is_valid_strip raw] at h5
    exact absurd h5 (by decide)

/-- Witness for C2 at the two concrete inputs named by the claim. -/
theorem c2_encode_fallback_chain_witness :
    BinanceTradingPair.tryFromNormalized ⟨some (S "BTC", S "USDT"), none, none⟩
      = EncodeResult.ok ⟨S "BTC" ++ S "USDT"⟩
    ∧ BinanceTradingPair.tryFromNormalized ⟨none, some (S "BTC_USDT"), none⟩
      = EncodeResult.ok ⟨S "BTCUSDT"⟩ :=
  ⟨(c2_encode_fallback_chain ⟨some (S "BTC", S "USDT"), none, none⟩).1
      (S "BTC") (S "USDT") rfl,
   (c2_encode_fallback_chain ⟨none, some (S "BTC_USDT"), none⟩).2.2.2.1
      (S "BTC_USDT") ⟨S "BTCUSDT"⟩ rfl rfl (by decide) rfl (by rfl)⟩

/-- Claim C10: stripping the three delimiter characters always yields a valid
string, so the strip-and-retry fallback never fails: a canonical value
with a raw pair and no delimiter always encodes successfully, and an
error leaves the conversion only when neither an explicit base/quote pair
nor a raw pair string is populated (the exhaustion error). -/
theorem c10_strip_fallback_total :
    (∀ raw : List Char, BinanceTradingPair.is_valid
        (raw.filter (fun c => !(c == '_' || c == '-' || c == '/'))) = true)
    ∧ (∀ v : NormalizedTradingPair, ∀ raw, v.base_quote = none → v.pair = some raw →
        v.delimiter = none →
        ∃ p, BinanceTradingPair.tryFromNormalized v = EncodeResult.ok p)
    ∧ (∀ v : NormalizedTradingPair, ∀ e,
        BinanceTradingPair.tryFromNormalized v = EncodeResult.err e →
        v.base_quote = none ∧ v.pair = none ∧ e = PairError.InvalidPairDebug v) := by
  have hstripOk : ∀ raw : List Char, BinanceTradingPair.new_checked
      (raw.filter (fun c => !(c == '_' || c == '-' || c == '/')))
      = Except.ok ⟨toUpperList (raw.filter (fun c => !(c == '_' || c == '-' || c == '/')))⟩ := by
    intro raw
    unfold BinanceTradingPair.new_checked BinanceTradingPair.tryFromString
      BinanceTradingPair.tryFromStr
    rw [if_pos (is_valid_strip raw)]
  have hpair : ∀ (raw : List Char) (dl : Option Char),
      BinanceTradingPair.tryFromNormalized ⟨none, some raw, dl⟩ =
        (match BinanceTradingPair.new_checked raw with
        | Except.ok v => EncodeResult.ok v
        | Except.error _ =>
          match dl with
          | some d =>
            (match splitOnChar d raw with
            | p0 :: p1 :: _ => EncodeResult.ok ⟨toUpperList p0 ++ toUpperList p1⟩
            | _ => EncodeResult.panicked)
          | none =>
            (match BinanceTradingPair.new_checked
                (raw.filter (fun c => !(c == '_' || c == '-' || c == '/'))) with
            | Except.ok this => EncodeResult.ok this
            | Except.error _ => EncodeResult.err (PairError.InvalidPairFormat raw))) :=
    fun raw dl => rfl
  refine ⟨is_valid_strip, ?_, ?_⟩
  · intro v raw h1 h2 h3
    obtain ⟨bq, pr, dl⟩ := v
    have hb : bq = none := h1
    have hp : pr = some raw := h2
    have hdl : dl = none := h3
    subst hb; subst hp; subst hdl
    rw [hpair raw none]
    cases hd : BinanceTradingPair.new_checked raw with
    | ok p => exact ⟨p, by simp only [hd]⟩
    | error e =>
      refine ⟨⟨toUpperList (List.filter (fun c => !(c == '_' || c == '-' || c == '/')) raw)⟩, ?_⟩
      simp only [hd, hstripOk raw]
  · intro v e h
    obtain ⟨bq, pr, dl⟩ := v
    cases bq with
    | some bqv =>
      obtain ⟨b, q⟩ := bqv
      have hv : BinanceTradingPair.tryFromNormalized ⟨some (b, q), pr, dl⟩
          = EncodeResult.ok ⟨b ++ q⟩ := rfl
      rw [hv] at h
      exact absurd h (by simp)
    | none =>
      cases pr with
      | none =>
        have hv : BinanceTradingPair.tryFromNormalized ⟨none, none, dl⟩
            = EncodeResult.err (PairError.InvalidPairDebug ⟨none, none, dl⟩) := rfl
        rw [hv] at h
        injection h with he2
        exact ⟨rfl, rfl, he2.symm⟩
      | some raw =>
        exfalso
        rw [hpair raw dl] at h
        cases hd : BinanceTradingPair.new_checked raw with
        | ok p => rw [hd] at h; simp at h
        | error e0 =>
          rw [hd] at h
          cases dl with
          | some d =>
            have h2 : (match splitOnChar d raw with
                | p0 :: p1 :: _ => EncodeResult.ok ⟨toUpperList p0 ++ toUpperList p1⟩
                | _ => EncodeResult.panicked) = EncodeResult.err e := h
            cases hsp : splitOnChar d raw with
            | nil => rw [hsp] at h2; simp at h2
            | cons p0 rest =>
              rw [hsp] at h2
              cases rest with
              | nil => simp at h2
              | cons p1 rest2 => simp at h2
          | none =>
            rw [hstripOk raw] at h
            simp at h

/-- Witness for C10 at concrete inputs: a raw pair with underscores and no
delimiter encodes successfully, and the exhaustion error appears on the
fully unpopulated value. -/
theorem c10_strip_fallback_total_witness :
    (∃ p, BinanceTradingPair.tryFromNormalized ⟨none, some (S "A_B-C/D"), none⟩
      = EncodeResult.ok p)
    ∧ ((⟨none, none, none⟩ : NormalizedTradingPair).base_quote = none
        ∧ (⟨none, none, none⟩ : NormalizedTradingPair).pair = none
        ∧ PairError.InvalidPairDebug ⟨none, none, none⟩
            = PairError.InvalidPairDebug ⟨none, none, none⟩) :=
  ⟨c10_strip_fallback_total.2.1 ⟨none, some (S "A_B-C/D"), none⟩ (S "A_B-C/D") rfl rfl rfl,
   c10_strip_fallback_total.2.2 ⟨none, none, none⟩
      (PairError.InvalidPairDebug ⟨none, none, none⟩) (by rfl)⟩

/-- Claim C9: trading-type parsing is total and case-insensitive: the lowered
token selects the alias-table variant, every unlisted token yields Other,
and no input produces an error. -/
theorem c9_trading_type_total (s : List Char) :
    (∃ t, BinanceTradingType.from_str s = Except.ok t)
    ∧ (toLowerList s = S "spot" →
        BinanceTradingType.from_str s = Except.ok BinanceTradingType.Spot)
    ∧ ((toLowerList s = S "perpetual" ∨ toLowerList s = S "perp" ∨ toLowerList s = S "swap"
        ∨ toLowerList s = S "linear" ∨ toLowerList s = S "inverse") →
        BinanceTradingType.from_str s = Except.ok BinanceTradingType.Perpetual)
    ∧ (toLowerList s = S "futures" →
        BinanceTradingType.from_str s = Except.ok BinanceTradingType.Futures)
    ∧ (toLowerList s = S "margin" →
        BinanceTradingType.from_str s = Except.ok BinanceTradingType.Margin)
    ∧ (toLowerList s = S "option" →
        BinanceTradingType.from_str s = Except.ok BinanceTradingType.Option)
    ∧ ((toLowerList s ≠ S "spot" ∧ toLowerList s ≠ S "perpetual" ∧ toLowerList s ≠ S "perp"
        ∧ toLowerList s ≠ S "swap" ∧ toLowerList s ≠ S "linear" ∧ toLowerList s ≠ S "inverse"
        ∧ toLowerList s ≠ S "futures" ∧ toLowerList s ≠ S "margin" ∧ toLowerList s ≠ S "option") →
        BinanceTradingType.from_str s = Except.ok BinanceTradingType.Other) := by
  refine ⟨?_, ?_, ?_, ?_, ?_, ?_, ?_⟩
  · simp only [BinanceTradingType.from_str]
    split_ifs <;> exact ⟨_, rfl⟩
  · intro h
    simp only [BinanceTradingType.from_str]
    rw [if_pos h]
  · intro h
    rcases h with h|h|h|h|h <;>
      (simp only [BinanceTradingType.from_str]; rw [h]; rfl)
  · intro h
    simp only [BinanceTradingType.from_str]
    rw [h]
    rfl
  · intro h
    simp only [BinanceTradingType.from_str]
    rw [h]
    rfl
  · intro h
    simp only [BinanceTradingType.from_str]
    rw [h]
    rfl
  · intro h
    obtain ⟨h1, h2, h3, h4, h5, h6, h7, h8, h9⟩ := h
    have hb : ¬(toLowerList s = S "perpetual" ∨ toLowerList s = S "perp"
        ∨ toLowerList s = S "swap" ∨ toLowerList s = S "linear"
        ∨ toLowerList s = S "inverse") := by
      push_neg
      exact ⟨h2, h3, h4, h5, h6⟩
    simp only [BinanceTradingType.from_str]
    rw [if_neg h1, if_neg hb, if_neg h7, if_neg h8, if_neg h9]

/-- Witness for C9 at the tokens named by the claim. -/
theorem c9_trading_type_total_witness :
    BinanceTradingType.from_str (S "SWAP") = Except.ok BinanceTradingType.Perpetual
    ∧ BinanceTradingType.from_str (S "linear") = Except.ok BinanceTradingType.Perpetual
    ∧ BinanceTradingType.from_str (S "perp") = Except.ok BinanceTradingType.Perpetual
    ∧ BinanceTradingType.from_str (S "weird-token") = Except.ok BinanceTradingType.Other :=
  ⟨(c9_trading_type_total (S "SWAP")).2.2.1 (Or.inr (Or.inr (Or.inl (by decide)))),
   (c9_trading_type_total (S "linear")).2.2.1 (Or.inr (Or.inr (Or.inr (Or.inl (by decide))))),
   (c9_trading_type_total (S "perp")).2.2.1 (Or.inr (Or.inl (by decide))),
   (c9_trading_type_total (S "weird-token")).2.2.2.2.2.2 (by decide)⟩

/-- A successful decode always yields an inner string that passes the
validity predicate and is a fixed point of upper-casing. -/
theorem tryFromStr_ok_invariant (s : List Char) (p : BinanceTradingPair)
    (h : BinanceTradingPair.tryFromStr s = Except.ok p) :
    BinanceTradingPair.is_valid p.val = true ∧ toUpperList p.val = p.val := by
  unfold BinanceTradingPair.tryFromStr at h
  by_cases hv : BinanceTradingPair.is_valid s = true
  · rw [if_pos hv] at h
    have hp : p = ⟨toUpperList s⟩ := by
      cases h
      rfl
    subst hp
    exact ⟨is_valid_toUpperList s hv, toUpperList_idem s⟩
  · rw [if_neg hv] at h
    exact absurd h (by simp)

/-- Decode of the stripped raw string always succeeds with the upper-cased
stripped string. -/
theorem new_checked_strip_ok (raw : List Char) :
    BinanceTradingPair.new_checked
      (raw.filter (fun c => !(c == '_' || c == '-' || c == '/')))
      = Except.ok ⟨toUpperList (raw.filter (fun c => !(c == '_' || c == '-' || c == '/')))⟩ := by
  unfold BinanceTradingPair.new_checked BinanceTradingPair.tryFromString
    BinanceTradingPair.tryFromStr
  rw [if_pos (is_valid_strip raw)]

/-- Reduction of the encode conversion on a value carrying only a raw pair
string and no delimiter. -/
theorem tryFromNormalized_raw_no_delim (raw : List Char) :
    BinanceTradingPair.tryFromNormalized ⟨none, some raw, none⟩ =
      (match BinanceTradingPair.new_checked raw with
      | Except.ok v => EncodeResult.ok v
      | Except.error _ =>
        (match BinanceTradingPair.new_checked
            (raw.filter (fun c => !(c == '_' || c == '-' || c == '/'))) with
        | Except.ok this => EncodeResult.ok this
        | Except.error _ => EncodeResult.err (PairError.InvalidPairFormat raw))) := rfl

/-- Counterexample to C3: the Deserialize construction path wraps the
decoded text verbatim, so deserializing btc_usdt yields an inner string
that contains an underscore (failing the validity predicate) and is not
upper-case; the explicit base/quote encode strategy likewise concatenates
verbatim, so base btc with quote usdt yields a lower-case inner string. -/
theorem c3_counterexample :
    BinanceTradingPair.deserialize (S "btc_usdt") = ⟨S "btc_usdt"⟩
    ∧ BinanceTradingPair.is_valid (BinanceTradingPair.deserialize (S "btc_usdt")).val = false
    ∧ toUpperList (BinanceTradingPair.deserialize (S "btc_usdt")).val
        ≠ (BinanceTradingPair.deserialize (S "btc_usdt")).val
    ∧ BinanceTradingPair.tryFromNormalized ⟨some (S "btc", S "usdt"), none, none⟩
        = EncodeResult.ok ⟨S "btcusdt"⟩
    ∧ toUpperList (S "btcusdt") ≠ S "btcusdt" :=
  ⟨rfl, by decide, by decide, by decide, by decide⟩

/-- Claim C3 amended: every pair produced through decode (TryFrom of &str or
String, or new_checked) has an inner string that passes the validity
predicate and is a fixed point of upper-casing, and so does every pair
produced by the encode conversion from a canonical value with no explicit
base/quote pair and no delimiter (the raw-decode and strip-and-retry
strategies); the explicit base/quote concatenation, the delimiter-split
strategy and Deserialize do not enforce this invariant. -/
theorem c3_invariant_amended :
    (∀ s p, BinanceTradingPair.tryFromStr s = Except.ok p →
      BinanceTradingPair.is_valid p.val = true ∧ toUpperList p.val = p.val)
    ∧ (∀ s p, BinanceTradingPair.tryFromString s = Except.ok p →
        BinanceTradingPair.is_valid p.val = true ∧ toUpperList p.val = p.val)
    ∧ (∀ s p, BinanceTradingPair.new_checked s = Except.ok p →
        BinanceTradingPair.is_valid p.val = true ∧ toUpperList p.val = p.val)
    ∧ (∀ (v : NormalizedTradingPair) (p : BinanceTradingPair) (raw : List Char),
        v.base_quote = none → v.pair = some raw → v.delimiter = none →
        BinanceTradingPair.tryFromNormalized v = EncodeResult.ok p →
        BinanceTradingPair.is_valid p.val = true ∧ toUpperList p.val = p.val) := by
  refine ⟨tryFromStr_ok_invariant, tryFromStr_ok_invariant, tryFromStr_ok_invariant, ?_⟩
  intro v p raw h1 h2 h3 h4
  obtain ⟨bq, pr, dl⟩ := v
  have hb : bq = none := h1
  have hp : pr = some raw := h2
  have hdl : dl = none := h3
  subst hb; subst hp; subst hdl
  rw [tryFromNormalized_raw_no_delim raw] at h4
  cases hd : BinanceTradingPair.new_checked raw with
  | ok q =>
    rw [hd] at h4
    have hq : q = p := by
      have h4r : EncodeResult.ok q = EncodeResult.ok p := h4
      cases h4r
      rfl
    subst hq
    exact tryFromStr_ok_invariant raw q hd
  | error e =>
    rw [hd, new_checked_strip_ok raw] at h4
    have hq : (⟨toUpperList (raw.filter (fun c => !(c == '_' || c == '-' || c == '/')))⟩
        : BinanceTradingPair) = p := by
      have h4r : EncodeResult.ok
          ⟨toUpperList (raw.filter (fun c => !(c == '_' || c == '-' || c == '/')))⟩
          = EncodeResult.ok p := h4
      cases h4r
      rfl
    rw [← hq]
    exact tryFromStr_ok_invariant _ _ (new_checked_strip_ok raw)

/-- Witness for the amended C3 at concrete inputs: decode of btc and
encode of raw btc-usdt with no delimiter both yield invariant-satisfying
pairs. -/
theorem c3_invariant_amended_witness :
    (BinanceTradingPair.is_valid
        (BinanceTradingPair.mk (S "BTC")).val = true
      ∧ toUpperList (BinanceTradingPair.mk (S "BTC")).val
          = (BinanceTradingPair.mk (S "BTC")).val)
    ∧ (BinanceTradingPair.is_valid (BinanceTradingPair.mk (S "BTCUSDT")).val = true
      ∧ toUpperList (BinanceTradingPair.mk (S "BTCUSDT")).val
          = (BinanceTradingPair.mk (S "BTCUSDT")).val) :=
  ⟨c3_invariant_amended.1 (S "btc") ⟨S "BTC"⟩ (by rfl),
   c3_invariant_amended.2.2.2 ⟨none, some (S "btc-usdt"), none⟩ ⟨S "BTCUSDT"⟩
      (S "btc-usdt") rfl rfl rfl (by rfl)⟩

/-- Counterexample to C4: a record whose platform names an unrecognized
chain makes normalize panic (the unwrap of symbols.rs line 129); the
normalization diverges instead of returning a typed UnrecognizedBlockchain
error result — its return type carries no error channel at all. -/
theorem c4_counterexample :
    BinanceSymbol.normalize
      { symbol := S "WFOO"
        last_updated := S "2024-01-01T00:00:00Z"
        platform := some
          { symbol := S "FOO", name := S "NotAChain"
            token_address := S "0xabc", id := 1, slug := S "foo" }
        name := S "Wrapped Foo" }
      = PanicOr.panicked := by decide

/-- Claim C4 amended: an unrecognized platform chain name makes the normalization
of the record panic — fatal and non-recoverable, but a process panic
rather than a typed error result — while a recognized chain name never
drops the platform link: normalization returns a currency whose
blockchain list is nonempty. -/
theorem c4_unrecognized_chain_amended :
    (∀ (r : BinanceSymbol) (pl : BinanceSymbolPlatform),
      r.platform = some pl → parseBlockchainName pl.name = none →
      r.parse_blockchain = PanicOr.panicked ∧ r.normalize = PanicOr.panicked)
    ∧ (∀ (r : BinanceSymbol) (pl : BinanceSymbolPlatform) (b : List Char),
        r.platform = some pl → parseBlockchainName pl.name = some b →
        ∃ curr, r.normalize = PanicOr.ok curr ∧ curr.blockchains ≠ []) := by
  constructor
  · intro r pl h1 h2
    have hpb : r.parse_blockchain = PanicOr.panicked := by
      unfold BinanceSymbol.parse_blockchain
      simp only [h1, h2]
    refine ⟨hpb, ?_⟩
    unfold BinanceSymbol.normalize
    simp only [hpb]
  · intro r pl b h1 h2
    have hpb : r.parse_blockchain = PanicOr.ok (some
        { blockchain := b
          address := some pl.token_address
          is_wrapped := containsSub (toLowerList r.name) (S "wrapped")
            && startsWithChar 'w' (toLowerList r.symbol)
          wrapped_currency := none }) := by
      unfold BinanceSymbol.parse_blockchain
      simp only [h1, h2]
    refine ⟨{ exchange := CexExchange.Binance
              symbol := r.symbol
              name := r.name
              display_name := none
              status := S "last updated: " ++ r.last_updated
              blockchains := [
                { blockchain := b
                  address := some pl.token_address
                  is_wrapped := containsSub (toLowerList r.name) (S "wrapped")
                    && startsWithChar 'w' (toLowerList r.symbol)
                  wrapped_currency := none }] }, ?_, ?_⟩
    · unfold BinanceSymbol.normalize
      simp only [hpb]
    · simp

/-- Witness for the amended C4: a record with an unrecognized chain name
panics; a record naming Ethereum normalizes with a nonempty blockchain
list. -/
theorem c4_unrecognized_chain_amended_witness :
    (BinanceSymbol.parse_blockchain
        { symbol := S "BAD"
          last_updated := S "t"
          platform := some
            { symbol := S "B", name := S "NotAChain"
              token_address := S "0x1", id := 2, slug := S "b" }
          name := S "Bad" } = PanicOr.panicked
      ∧ BinanceSymbol.normalize
        { symbol := S "BAD"
          last_updated := S "t"
          platform := some
            { symbol := S "B", name := S "NotAChain"
              token_address := S "0x1", id := 2, slug := S "b" }
          name := S "Bad" } = PanicOr.panicked)
    ∧ ∃ curr, BinanceSymbol.normalize
        { symbol := S "GOOD"
          last_updated := S "t"
          platform := some
            { symbol := S "G", name := S "Ethereum"
              token_address := S "0x2", id := 3, slug := S "g" }
          name := S "Good" } = PanicOr.ok curr ∧ curr.blockchains ≠ [] :=
  ⟨c4_unrecognized_chain_amended.1
      { symbol := S "BAD", last_updated := S "t"
        platform := some
          { symbol := S "B", name := S "NotAChain"
            token_address := S "0x1", id := 2, slug := S "b" }
        name := S "Bad" }
      { symbol := S "B", name := S "NotAChain"
        token_address := S "0x1", id := 2, slug := S "b" }
      rfl (by decide),
   c4_unrecognized_chain_amended.2
      { symbol := S "GOOD", last_updated := S "t"
        platform := some
          { symbol := S "G", name := S "Ethereum"
            token_address := S "0x2", id := 3, slug := S "g" }
        name := S "Good" }
      { symbol := S "G", name := S "Ethereum"
        token_address := S "0x2", id := 3, slug := S "g" }
      (S "Ethereum") rfl (by decide)⟩

/-- Claim C5: on a record whose platform chain name (when present) is
recognized, normalize copies symbol and name verbatim, leaves the display
name unset, renders the last-updated timestamp into the status text, and
produces an empty blockchain list exactly when no platform is present,
otherwise exactly one entry with the platform token address, the wrapped
flag from the name/symbol heuristic, and no wrapped-currency link. -/
theorem c5_normalize_fields :
    (∀ r : BinanceSymbol, r.platform = none →
      r.normalize = PanicOr.ok
        { exchange := CexExchange.Binance
          symbol := r.symbol
          name := r.name
          display_name := none
          status := S "last updated: " ++ r.last_updated
          blockchains := [] })
    ∧ (∀ (r : BinanceSymbol) (pl : BinanceSymbolPlatform) (b : List Char),
        r.platform = some pl → parseBlockchainName pl.name = some b →
        r.normalize = PanicOr.ok
          { exchange := CexExchange.Binance
            symbol := r.symbol
            name := r.name
            display_name := none
            status := S "last updated: " ++ r.last_updated
            blockchains := [
              { blockchain := b
                address := some pl.token_address
                is_wrapped := containsSub (toLowerList r.name) (S "wrapped")
                  && startsWithChar 'w' (toLowerList r.symbol)
                wrapped_currency := none }] }) := by
  constructor
  · intro r h1
    have hpb : r.parse_blockchain = PanicOr.ok none := by
      unfold BinanceSymbol.parse_blockchain
      simp only [h1]
    unfold BinanceSymbol.normalize
    simp only [hpb]
  · intro r pl b h1 h2
    have hpb : r.parse_blockchain = PanicOr.ok (some
        { blockchain := b
          address := some pl.token_address
          is_wrapped := containsSub (toLowerList r.name) (S "wrapped")
            && startsWithChar 'w' (toLowerList r.symbol)
          wrapped_currency := none }) := by
      unfold BinanceSymbol.parse_blockchain
      simp only [h1, h2]
    unfold BinanceSymbol.normalize
    simp only [hpb]

/-- Witness for C5 at two concrete records, one without a platform and one
with a recognized Ethereum platform on a wrapped token. -/
theorem c5_normalize_fields_witness :
    BinanceSymbol.normalize
      { symbol := S "BTC", last_updated := S "t0", platform := none, name := S "Bitcoin" }
      = PanicOr.ok
        { exchange := CexExchange.Binance, symbol := S "BTC", name := S "Bitcoin"
          display_name := none, status := S "last updated: " ++ S "t0", blockchains := [] }
    ∧ BinanceSymbol.normalize
      { symbol := S "WETH"
        last_updated := S "t1"
        platform := some
          { symbol := S "ETH", name := S "Ethereum"
            token_address := S "0xc02a", id := 4, slug := S "weth" }
        name := S "Wrapped Ether" }
      = PanicOr.ok
        { exchange := CexExchange.Binance, symbol := S "WETH", name := S "Wrapped Ether"
          display_name := none, status := S "last updated: " ++ S "t1"
          blockchains := [
            { blockchain := S "Ethereum", address := some (S "0xc02a")
              is_wrapped := containsSub (toLowerList (S "Wrapped Ether")) (S "wrapped")
                && startsWithChar 'w' (toLowerList (S "WETH"))
              wrapped_currency := none }] } :=
  ⟨c5_normalize_fields.1
      { symbol := S "BTC", last_updated := S "t0", platform := none, name := S "Bitcoin" }
      rfl,
   c5_normalize_fields.2
      { symbol := S "WETH", last_updated := S "t1"
        platform := some
          { symbol := S "ETH", name := S "Ethereum"
            token_address := S "0xc02a", id := 4, slug := S "weth" }
        name := S "Wrapped Ether" }
      { symbol := S "ETH", name := S "Ethereum"
        token_address := S "0xc02a", id := 4, slug := S "weth" }
      (S "Ethereum") rfl (by decide)⟩

/-- Counterexample to C1: a reference entry flagged is_wrapped with a
present wrapped_currency whose referenced name does not contain wrapped is
counted by the synthetic count of the claim but not by the code, which also
requires the referenced currency to look wrapped (name containing wrapped,
symbol starting with w); on such a batch the equivalence of the claim holds
while the comparison of symbols.rs returns false. -/
theorem c1_counterexample :
    specEquivalent
      ⟨[{ symbol := S "FOO", last_updated := S "t", platform := none, name := S "Foo" },
        { symbol := S "BAR", last_updated := S "t", platform := none, name := S "Bar" }]⟩
      [{ exchange := CexExchange.Binance, symbol := S "FOO", name := S "Foo"
         display_name := none, status := S "s"
         blockchains := [
           { blockchain := S "Ethereum", address := none, is_wrapped := true
             wrapped_currency := some { name := S "plain", symbol := S "x" } }] }]
      = true
    ∧ BinanceAllSymbols.eqNormalized
      ⟨[{ symbol := S "FOO", last_updated := S "t", platform := none, name := S "Foo" },
        { symbol := S "BAR", last_updated := S "t", platform := none, name := S "Bar" }]⟩
      (NormalizedRestApiDataTypes.AllCurrencies
        [{ exchange := CexExchange.Binance, symbol := S "FOO", name := S "Foo"
           display_name := none, status := S "s"
           blockchains := [
             { blockchain := S "Ethereum", address := none, is_wrapped := true
               wrapped_currency := some { name := S "plain", symbol := S "x" } }] }])
      = false := by decide

/-- Claim C1 amended: the equivalence comparison returns true exactly when the
local batch length equals the reference length plus the number of
reference entries having some blockchain flagged is_wrapped whose present
wrapped_currency also looks wrapped (name containing wrapped and symbol
starting with w, case-insensitively), and for every reference entry the
(name, symbol) pair occurs among the local (name, symbol) pairs; every
non-currency payload compares as false. -/
theorem c1_equivalent_amended (self : BinanceAllSymbols) (other_currs : List NormalizedCurrency) :
    (BinanceAllSymbols.eqNormalized self
        (NormalizedRestApiDataTypes.AllCurrencies other_currs) = true
      ↔ (self.symbols.length = other_currs.length + other_currs.countP wrappedSyntheticCode
          ∧ ∀ curr ∈ other_currs,
              (curr.name, curr.symbol) ∈ self.symbols.map (fun sym => (sym.name, sym.symbol))))
    ∧ BinanceAllSymbols.eqNormalized self NormalizedRestApiDataTypes.OtherData = false := by
  constructor
  · unfold BinanceAllSymbols.eqNormalized
    simp [List.all_eq_true]
  · rfl

/-- Witness for the amended C1: the backward direction at a concrete pair
of batches (one wrapped-looking synthetic reference entry, two locals)
yields a true comparison. -/
theorem c1_equivalent_amended_witness :
    BinanceAllSymbols.eqNormalized
      ⟨[{ symbol := S "WBTC", last_updated := S "t", platform := none, name := S "Wrapped Bitcoin" },
        { symbol := S "BTC", last_updated := S "t", platform := none, name := S "Bitcoin" }]⟩
      (NormalizedRestApiDataTypes.AllCurrencies
        [{ exchange := CexExchange.Binance, symbol := S "WBTC", name := S "Wrapped Bitcoin"
           display_name := none, status := S "s"
           blockchains := [
             { blockchain := S "Ethereum", address := none, is_wrapped := true
               wrapped_currency := some { name := S "Wrapped Bitcoin", symbol := S "WBTC" } }] }])
      = true :=
  (c1_equivalent_amended
    ⟨[{ symbol := S "WBTC", last_updated := S "t", platform := none, name := S "Wrapped Bitcoin" },
      { symbol := S "BTC", last_updated := S "t", platform := none, name := S "Bitcoin" }]⟩
    [{ exchange := CexExchange.Binance, symbol := S "WBTC", name := S "Wrapped Bitcoin"
       display_name := none, status := S "s"
       blockchains := [
         { blockchain := S "Ethereum", address := none, is_wrapped := true
           wrapped_currency := some { name := S "Wrapped Bitcoin", symbol := S "WBTC" } }] }]).1.mpr
    (by decide)

/-- An Option-valued mapM over a list fails whenever some element fails:
the all-or-nothing behaviour of collecting per-element decode results. -/
theorem mapM_decode_none {α β : Type} (f : α → Option β) (l : List α) (x : α)
    (hx : x ∈ l) (hf : f x = none) : l.mapM f = none := by
  induction l with
  | nil => cases hx
  | cons a t ih =>
    rw [List.mapM_cons]
    rcases List.mem_cons.mp hx with h | h
    · subst h
      rw [hf]
      rfl
    · cases hfa : f a with
      | none => rfl
      | some b =>
        rw [ih h]
        rfl

/-- An Option-valued mapM over a list succeeds with the mapped values when
every element succeeds. -/
theorem mapM_decode_some {α β : Type} (f : α → Option β) (l : List α)
    (h : ∀ x ∈ l, ∃ y, f x = some y) :
    ∃ ys, l.mapM f = some ys := by
  induction l with
  | nil => exact ⟨[], rfl⟩
  | cons a t ih =>
    obtain ⟨y, hy⟩ := h a (List.mem_cons_self a t)
    obtain ⟨ys, hys⟩ := ih (fun x hx => h x (List.mem_cons_of_mem a hx))
    exact ⟨y :: ys, by rw [List.mapM_cons, hy, hys]; rfl⟩

/-- Claim C7: unwrapping the symbols envelope reports the first absent segment
of the data.body.data path as the matching missing-field error, reports a
non-array terminal value as the schema-mismatch error, and otherwise
decodes every element with all-or-nothing semantics: one failing element
fails the whole batch, and when every element decodes the batch is the
list of decoded records. -/
theorem c7_envelope_unwrap (val : JsonValue) :
    (val.get (S "data") = none →
      BinanceAllSymbols.deserialize val = Except.error EnvelopeError.missingData)
    ∧ (∀ outer, val.get (S "data") = some outer → outer.get (S "body") = none →
        BinanceAllSymbols.deserialize val = Except.error EnvelopeError.missingBody)
    ∧ (∀ outer body, val.get (S "data") = some outer → outer.get (S "body") = some body →
        body.get (S "data") = none →
        BinanceAllSymbols.deserialize val = Except.error EnvelopeError.missingNestedData)
    ∧ (∀ outer body inner, val.get (S "data") = some outer →
        outer.get (S "body") = some body → body.get (S "data") = some inner →
        inner.as_array = none →
        BinanceAllSymbols.deserialize val = Except.error EnvelopeError.notAnArray)
    ∧ (∀ outer body inner elems, val.get (S "data") = some outer →
        outer.get (S "body") = some body → body.get (S "data") = some inner →
        inner.as_array = some elems →
        (∃ x ∈ elems, decodeSymbol x = none) →
        BinanceAllSymbols.deserialize val = Except.error EnvelopeError.recordDecode)
    ∧ (∀ outer body inner elems symbols, val.get (S "data") = some outer →
        outer.get (S "body") = some body → body.get (S "data") = some inner →
        inner.as_array = some elems →
        elems.mapM decodeSymbol = some symbols →
        BinanceAllSymbols.deserialize val = Except.ok ⟨symbols⟩) := by
  refine ⟨?_, ?_, ?_, ?_, ?_, ?_⟩
  · intro h1
    unfold BinanceAllSymbols.deserialize
    simp only [h1]
  · intro outer h1 h2
    unfold BinanceAllSymbols.deserialize
    simp only [h1, h2]
  · intro outer body h1 h2 h3
    unfold BinanceAllSymbols.deserialize
    simp only [h1, h2, h3]
  · intro outer body inner h1 h2 h3 h4
    unfold BinanceAllSymbols.deserialize
    simp only [h1, h2, h3, h4]
  · intro outer body inner elems h1 h2 h3 h4 h5
    obtain ⟨x, hx, hfx⟩ := h5
    have hm : elems.mapM decodeSymbol = none := mapM_decode_none decodeSymbol elems x hx hfx
    unfold BinanceAllSymbols.deserialize
    simp only [h1, h2, h3, h4, hm]
  · intro outer body inner elems symbols h1 h2 h3 h4 h5
    unfold BinanceAllSymbols.deserialize
    simp only [h1, h2, h3, h4, h5]

/-- Witness for C7 at concrete documents: an empty object misses the data
segment; a well-formed envelope whose array holds one null element fails
the whole batch; a well-formed envelope with one decodable record yields
that record. -/
theorem c7_envelope_unwrap_witness :
    BinanceAllSymbols.deserialize (JsonValue.obj [])
      = Except.error EnvelopeError.missingData
    ∧ BinanceAllSymbols.deserialize
        (JsonValue.obj [(S "data", JsonValue.obj [(S "body", JsonValue.obj
          [(S "data", JsonValue.arr [JsonValue.null])])])])
      = Except.error EnvelopeError.recordDecode
    ∧ BinanceAllSymbols.deserialize
        (JsonValue.obj [(S "data", JsonValue.obj [(S "body", JsonValue.obj
          [(S "data", JsonValue.arr [JsonValue.obj
            [(S "symbol", JsonValue.str (S "BTC")),
             (S "name", JsonValue.str (S "Bitcoin")),
             (S "last_updated", JsonValue.str (S "t"))]])])])])
      = Except.ok ⟨[{ symbol := S "BTC", name := S "Bitcoin"
                      last_updated := S "t", platform := none }]⟩ :=
  ⟨(c7_envelope_unwrap (JsonValue.obj [])).1 rfl,
   (c7_envelope_unwrap
      (JsonValue.obj [(S "data", JsonValue.obj [(S "body", JsonValue.obj
        [(S "data", JsonValue.arr [JsonValue.null])])])])).2.2.2.2.1
      (JsonValue.obj [(S "body", JsonValue.obj [(S "data", JsonValue.arr [JsonValue.null])])])
      (JsonValue.obj [(S "data", JsonValue.arr [JsonValue.null])])
      (JsonValue.arr [JsonValue.null])
      [JsonValue.null]
      rfl rfl rfl rfl ⟨JsonValue.null, List.Mem.head _, rfl⟩,
   (c7_envelope_unwrap
      (JsonValue.obj [(S "data", JsonValue.obj [(S "body", JsonValue.obj
        [(S "data", JsonValue.arr [JsonValue.obj
          [(S "symbol", JsonValue.str (S "BTC")),
           (S "name", JsonValue.str (S "Bitcoin")),
           (S "last_updated", JsonValue.str (S "t"))]])])])])).2.2.2.2.2
      (JsonValue.obj [(S "body", JsonValue.obj
        [(S "data", JsonValue.arr [JsonValue.obj
          [(S "symbol", JsonValue.str (S "BTC")),
           (S "name", JsonValue.str (S "Bitcoin")),
           (S "last_updated", JsonValue.str (S "t"))]])])])
      (JsonValue.obj [(S "data", JsonValue.arr [JsonValue.obj
        [(S "symbol", JsonValue.str (S "BTC")),
         (S "name", JsonValue.str (S "Bitcoin")),
         (S "last_updated", JsonValue.str (S "t"))]])])
      (JsonValue.arr [JsonValue.obj
        [(S "symbol", JsonValue.str (S "BTC")),
         (S "name", JsonValue.str (S "Bitcoin")),
         (S "last_updated", JsonValue.str (S "t"))]])
      [JsonValue.obj
        [(S "symbol", JsonValue.str (S "BTC")),
         (S "name", JsonValue.str (S "Bitcoin")),
         (S "last_updated", JsonValue.str (S "t"))]]
      [{ symbol := S "BTC", name := S "Bitcoin", last_updated := S "t", platform := none }]
      rfl rfl rfl rfl rfl⟩
